import Mathlib

/-!
Verification of the FlavorForge storefront core: the offer/discount
evaluator (`src/lib/api.ts`), the store pricing policy
(`src/lib/store-config.ts`), the checkout workflow
(`src/app/api/checkout/route.ts`) and the customer order-cancellation
route (`src/app/api/orders/cancel/route.ts`), shallowly embedded in
Lean.  Money amounts are modelled as rationals, timestamps as integers
(epoch milliseconds), and JavaScript `undefined`/absent values as
`Option`.  The one JavaScript arithmetic subtlety that matters here,
`0 / 0 = NaN` inside `Math.round`, is modelled explicitly with `JSNum`.
-/

namespace FlavorForge

/-! ## Offer/Discount evaluator (src/lib/api.ts) -/

inductive DiscountType where
  | percentage
  | fixed
deriving DecidableEq, Repr

/-- The fields of a `FoodItem` (the `products` collection record) that the
offer evaluator and the checkout workflow read.  `price` is the
authoritative unit price; the offer fields mirror the optional fields of
the TypeScript interface (`discountType?`, `discountValue?`,
`offerStartDate?`, `offerEndDate?`). -/
structure FoodItem where
  id : String
  name : String
  price : ℚ
  isOnOffer : Bool
  discountType : Option DiscountType
  discountValue : Option ℚ
  offerStartDate : Option ℤ
  offerEndDate : Option ℤ
  isAvailable : Bool
deriving DecidableEq, Repr

/-- JavaScript truthiness of an optional number: `undefined` and `0` are
falsy, every other number is truthy. -/
def truthyQ : Option ℚ → Bool
  | none => false
  | some v => v ≠ 0

/-- `isOfferActive(item)` from src/lib/api.ts: false when `isOnOffer` is
unset, `discountValue` is falsy, or `discountValue <= 0`; otherwise `now`
must not lie before `offerStartDate` nor after `offerEndDate` (a missing
bound is unbounded on that side). -/
def isOfferActive (item : FoodItem) (now : ℤ) : Bool :=
  if ¬ item.isOnOffer ∨ ¬ truthyQ item.discountValue ∨ item.discountValue.getD 0 ≤ 0 then
    false
  else if (match item.offerStartDate with
           | some startDate => decide (now < startDate)
           | none => false) then
    false
  else if (match item.offerEndDate with
           | some endDate => decide (endDate < now)
           | none => false) then
    false
  else
    true

/-- `getEffectivePrice(item)` from src/lib/api.ts: the raw price when no
offer is active; otherwise the discounted price, clamped at zero, for the
percentage and the fixed discount type. -/
def getEffectivePrice (item : FoodItem) (now : ℤ) : ℚ :=
  if ¬ isOfferActive item now then
    item.price
  else if item.discountType = some DiscountType.percentage ∧ truthyQ item.discountValue then
    max 0 (item.price - item.price * item.discountValue.getD 0 / 100)
  else if item.discountType = some DiscountType.fixed ∧ truthyQ item.discountValue then
    max 0 (item.price - item.discountValue.getD 0)
  else
    item.price

/-- `getSavingsAmount(item)` from src/lib/api.ts. -/
def getSavingsAmount (item : FoodItem) (now : ℤ) : ℚ :=
  if ¬ isOfferActive item now then 0
  else item.price - getEffectivePrice item now

/-- A JavaScript `number` restricted to the values reachable in the
savings-percentage computation: a finite rational, `NaN`, or a signed
infinity. -/
inductive JSNum where
  | num (q : ℚ)
  | nan
  | posInf
  | negInf
deriving DecidableEq, Repr

/-- JavaScript division of finite numbers: division by zero gives `NaN`
when the numerator is zero and a signed infinity otherwise. -/
def jsDiv (a b : ℚ) : JSNum :=
  if b = 0 then
    if a = 0 then JSNum.nan
    else if 0 < a then JSNum.posInf
    else JSNum.negInf
  else JSNum.num (a / b)

/-- JavaScript multiplication of a possibly non-finite number by a
positive finite constant. -/
def jsMulPos (x : JSNum) (c : ℚ) : JSNum :=
  match x with
  | JSNum.num q => JSNum.num (q * c)
  | JSNum.nan => JSNum.nan
  | JSNum.posInf => JSNum.posInf
  | JSNum.negInf => JSNum.negInf

/-- `Math.round`: rounds a finite value half-up (toward positive
infinity); `NaN` and the infinities are returned unchanged. -/
def jsRound (x : JSNum) : JSNum :=
  match x with
  | JSNum.num q => JSNum.num ((⌊q + 1/2⌋ : ℤ) : ℚ)
  | y => y

/-- `getSavingsPercentage(item)` from src/lib/api.ts:
`Math.round((savings / item.price) * 100)` after the active-offer guard.
There is no guard against `item.price = 0`, so that case evaluates
`0 / 0 = NaN`. -/
def getSavingsPercentage (item : FoodItem) (now : ℤ) : JSNum :=
  if ¬ isOfferActive item now then JSNum.num 0
  else jsRound (jsMulPos (jsDiv (getSavingsAmount item now) item.price) 100)

/-! ## Store pricing policy (src/lib/store-config.ts) -/

inductive ServiceType where
  | delivery
  | pickup
deriving DecidableEq, Repr

/-- The `serviceOptions` group of the store configuration; each field is
optional as in the Payload-backed record. -/
structure ServiceOptions where
  enableDelivery : Option Bool
  enablePickup : Option Bool
  deliveryFee : Option ℚ
  freeDeliveryThreshold : Option ℚ
deriving DecidableEq, Repr

/-- The slice of `StoreConfig` that the pricing policy reads. -/
structure StoreConfig where
  serviceOptions : Option ServiceOptions
  taxRate : Option ℚ
  minOrderAmount : ℚ
deriving DecidableEq, Repr

/-- `isDeliveryEnabled(config)`:
`storeConfig.serviceOptions?.enableDelivery ?? true`. -/
def isDeliveryEnabled (config : StoreConfig) : Bool :=
  (config.serviceOptions.bind ServiceOptions.enableDelivery).getD true

/-- `calculateDeliveryFee(orderAmount, serviceType, config)` from
src/lib/store-config.ts, with the destructuring defaults
`deliveryFee = 0` and `freeDeliveryThreshold = 0`. -/
def calculateDeliveryFee (orderAmount : ℚ) (serviceType : ServiceType)
    (config : StoreConfig) : ℚ :=
  let deliveryFee := (config.serviceOptions.bind ServiceOptions.deliveryFee).getD 0
  let freeDeliveryThreshold :=
    (config.serviceOptions.bind ServiceOptions.freeDeliveryThreshold).getD 0
  if serviceType = ServiceType.pickup ∨ ¬ isDeliveryEnabled config then 0
  else if 0 < freeDeliveryThreshold ∧ freeDeliveryThreshold ≤ orderAmount then 0
  else deliveryFee

/-- `calculateTax(amount, config)` from src/lib/store-config.ts. -/
def calculateTax (amount : ℚ) (config : StoreConfig) : ℚ :=
  amount * config.taxRate.getD 0 / 100

/-! ## Checkout workflow (src/app/api/checkout/route.ts)

The handler is embedded as a function from the parsed request body, the
current time, and the data-store state to a response and the resulting
state.  Data-store writes (`payload.create`/`payload.update`) are pure
list operations that always succeed; the failure branches modelled are
exactly the checks the route and the Orders collection perform. -/

/-- A delivery address; string fields model the JSON strings, with the
empty string standing for an absent/falsy value. -/
structure Address where
  street : String
  area : String
  city : String
  postalCode : String
  phone : String
deriving DecidableEq, Repr

structure CustomerInfo where
  email : String
  password : String
  firstName : String
  lastName : String
  phone : String
deriving DecidableEq, Repr

/-- A client-submitted cart line.  `price` is the client-claimed price,
which the route never uses for pricing; `id` is `none` when the item has
no (truthy) id. -/
structure CartItem where
  id : Option String
  name : String
  price : ℚ
  quantity : ℚ
deriving DecidableEq, Repr

/-- The parsed body of `POST /api/checkout`; `totalAmount` is the
client-claimed total, destructured by the route but never read again. -/
structure CheckoutRequest where
  items : Option (List CartItem)
  customerInfo : Option CustomerInfo
  deliveryAddress : Option Address
  serviceType : Option ServiceType
  bookingDate : Option ℤ
  customerNotes : Option String
  totalAmount : Option ℚ
deriving DecidableEq, Repr

/-- A record of the `customers` collection.  The aggregate fields default
to 0 on creation (collection `defaultValue: 0`). -/
structure Customer where
  id : ℕ
  email : String
  password : String
  firstName : String
  lastName : String
  phone : String
  isActive : Bool
  defaultAddress : Option Address
  totalOrders : ℚ
  totalSpent : ℚ
  loyaltyPoints : ℚ
  lastOrderDate : Option ℤ
deriving DecidableEq, Repr

inductive OrderStatus where
  | pending
  | confirmed
  | preparing
  | readyForPickup
  | outForDelivery
  | completed
  | cancelled
deriving DecidableEq, Repr

inductive PaymentStatus where
  | pending
  | paid
  | failed
  | refunded
deriving DecidableEq, Repr

/-- One persisted order line: product reference, quantity, unit price
snapshot and subtotal. -/
structure OrderItem where
  foodItem : String
  quantity : ℚ
  price : ℚ
  subtotal : ℚ
deriving DecidableEq, Repr

/-- A record of the `orders` collection. -/
structure Order where
  id : ℕ
  orderNumber : String
  customer : ℕ
  items : List OrderItem
  totalAmount : ℚ
  status : OrderStatus
  bookingDate : ℤ
  customerNotes : String
  serviceType : ServiceType
  paymentStatus : PaymentStatus
  deliveryAddress : Option Address
deriving DecidableEq, Repr

/-- The slice of the data store the checkout and cancellation routes
touch.  `nextId` supplies fresh record ids. -/
structure DBState where
  customers : List Customer
  products : List FoodItem
  orders : List Order
  nextId : ℕ
deriving DecidableEq, Repr

/-- The response of the checkout route, by taxonomy: structural
validation failure (400), customer-step failure (the password check),
item failure (unknown/missing product id, aborting the whole checkout),
booking lead-time failure, order-creation failure (the Orders collection
rejects the document), or success carrying the created order and the
upserted customer. -/
inductive CheckoutResult where
  | validationError (msg : String)
  | customerError (msg : String)
  | itemError (msg : String)
  | schedulingError
  | orderError (msg : String)
  | success (order : Order) (customer : Customer) (isNewCustomer : Bool)
deriving DecidableEq, Repr

/-- The delivery-address completeness test of the route:
`!deliveryAddress || !deliveryAddress.street || !deliveryAddress.area`. -/
def addressIncomplete : Option Address → Bool
  | none => true
  | some a => decide (a.street = "" ∨ a.area = "")

/-- `payload.update` on the customers collection: replace the record with
the matching id. -/
def updateCustomerById (customers : List Customer) (cid : ℕ) (c' : Customer) :
    List Customer :=
  customers.map (fun c => if c.id = cid then c' else c)

/-- Outcome of the customer create-or-find step: the post-upsert customer
record, the `isNewCustomer` flag, and the state after the write. -/
structure UpsertOutcome where
  customer : Customer
  isNew : Bool
  state : DBState
deriving DecidableEq, Repr

/-- `serviceType === 'delivery' && deliveryAddress` guard used when
copying the submitted address into a customer record: the address when
the guard holds, the fallback otherwise. -/
def deliveryAddressOr (serviceType : ServiceType) (deliveryAddress : Option Address)
    (fallback : Option Address) : Option Address :=
  match serviceType, deliveryAddress with
  | ServiceType.delivery, some a => some a
  | _, _ => fallback

/-- The customer resolution step of the route: find by email; if found,
update contact fields (and `defaultAddress` for delivery orders); if not
found, require a password and create the customer with `isActive = true`
and zeroed aggregates. -/
def upsertCustomer (st : DBState) (ci : CustomerInfo) (serviceType : ServiceType)
    (deliveryAddress : Option Address) : Except String UpsertOutcome :=
  match st.customers.find? (fun c => decide (c.email = ci.email)) with
  | some c0 =>
    let c1 := { c0 with
      firstName := ci.firstName
      lastName := ci.lastName
      phone := ci.phone
      defaultAddress := deliveryAddressOr serviceType deliveryAddress c0.defaultAddress }
    Except.ok { customer := c1, isNew := false,
                state := { st with customers := updateCustomerById st.customers c0.id c1 } }
  | none =>
    if ci.password = "" then
      Except.error "Password is required for new customers"
    else
      let c1 : Customer := {
        id := st.nextId
        email := ci.email
        password := ci.password
        firstName := ci.firstName
        lastName := ci.lastName
        phone := ci.phone
        isActive := true
        defaultAddress := deliveryAddressOr serviceType deliveryAddress none
        totalOrders := 0
        totalSpent := 0
        loyaltyPoints := 0
        lastOrderDate := none }
      let st' := { st with customers := st.customers ++ [c1], nextId := st.nextId + 1 }
      Except.ok { customer := c1, isNew := true, state := st' }

/-- The item-processing loop of the route: for each cart line in order,
fail on a missing id or an id not in the products collection (naming the
offending item, and aborting the whole checkout); otherwise build the
order line from the authoritative product record (`price` is the raw
product price — the client-claimed line price is discarded) and
accumulate the subtotal. -/
def processItems (products : List FoodItem) : List CartItem → Except String (List OrderItem × ℚ)
  | [] => Except.ok ([], 0)
  | item :: rest =>
    match item.id with
    | none => Except.error ("Item missing ID: " ++ item.name)
    | some pid =>
      match products.find? (fun p => decide (p.id = pid)) with
      | none => Except.error ("Food item with ID " ++ pid ++ " not found")
      | some foodItem =>
        match processItems products rest with
        | Except.error msg => Except.error msg
        | Except.ok (lines, total) =>
          Except.ok ({ foodItem := foodItem.id
                       quantity := item.quantity
                       price := foodItem.price
                       subtotal := foodItem.price * item.quantity } :: lines,
                     foodItem.price * item.quantity + total)

/-- Whether the Orders collection accepts the order document:
`items` has `minRows: 1` and each line's `quantity` has `min: 1`. -/
def orderDocValid (orderItems : List OrderItem) : Bool :=
  ¬ orderItems.isEmpty ∧ orderItems.all (fun line => decide (1 ≤ line.quantity))

/-- The commit phase of the route: create the order (the Orders
collection's validation can still reject it) and then update the
customer's aggregate statistics.  The success response carries the
pre-aggregate-update customer record, as the route's `customer` variable
is not reassigned after the statistics update. -/
def createOrderStep (u : UpsertOutcome) (orderItems : List OrderItem)
    (calculatedTotal : ℚ) (serviceType : ServiceType) (bookingDate : ℤ)
    (deliveryAddress : Option Address) (customerNotes : Option String)
    (ci : CustomerInfo) (now : ℤ) : CheckoutResult × DBState :=
  if ¬ orderDocValid orderItems then
    (CheckoutResult.orderError "Failed to create order", u.state)
  else
    let order : Order := {
      id := u.state.nextId
      orderNumber := "ORD-" ++ toString now
      customer := u.customer.id
      items := orderItems
      totalAmount := calculatedTotal
      status := OrderStatus.pending
      bookingDate := bookingDate
      customerNotes := customerNotes.getD ""
      serviceType := serviceType
      paymentStatus := PaymentStatus.pending
      deliveryAddress :=
        deliveryAddressOr serviceType
          ((deliveryAddress.map (fun a =>
            { a with phone := if a.phone = "" then ci.phone else a.phone })))
          none }
    let updatedCustomer := { u.customer with
      totalOrders := u.customer.totalOrders + 1
      totalSpent := u.customer.totalSpent + calculatedTotal
      lastOrderDate := some now
      loyaltyPoints := u.customer.loyaltyPoints + (⌊calculatedTotal⌋ : ℤ) }
    (CheckoutResult.success order u.customer u.isNew,
     { u.state with
        orders := u.state.orders ++ [order]
        customers := updateCustomerById u.state.customers u.customer.id updatedCustomer
        nextId := u.state.nextId + 1 })

/-- The checkout route `POST /api/checkout`, in the order the code runs:
structural validation, delivery-address validation, customer upsert
(a write that happens before the remaining checks), item re-pricing,
booking lead-time validation (`hoursDiff < 24` rejects), then order
creation and the customer-aggregate update.  The client-claimed
`totalAmount` (last request field) is never read. -/
def checkout : CheckoutRequest → ℤ → DBState → CheckoutResult × DBState
  | ⟨oitems, ocustomerInfo, deliveryAddress, oserviceType, obookingDate,
     customerNotes, _⟩, now, st =>
    match oitems, ocustomerInfo, obookingDate, oserviceType with
    | some items, some ci, some bookingDate, some serviceType =>
      if serviceType = ServiceType.delivery ∧ addressIncomplete deliveryAddress then
        (CheckoutResult.validationError "Missing required delivery address information", st)
      else
        match upsertCustomer st ci serviceType deliveryAddress with
        | Except.error msg => (CheckoutResult.customerError msg, st)
        | Except.ok u =>
          match processItems u.state.products items with
          | Except.error msg => (CheckoutResult.itemError msg, u.state)
          | Except.ok (orderItems, calculatedTotal) =>
            if ((bookingDate - now : ℤ) : ℚ) / (1000 * 3600) < 24 then
              (CheckoutResult.schedulingError, u.state)
            else
              createOrderStep u orderItems calculatedTotal serviceType bookingDate
                deliveryAddress customerNotes ci now
    | _, _, _, _ =>
      (CheckoutResult.validationError "Missing required checkout information", st)

/-! ## Customer order cancellation (src/app/api/orders/cancel/route.ts) -/

/-- The response of the cancellation route: missing parameters (400),
order not found for this customer (404), non-cancellable status (400),
or success carrying the updated order. -/
inductive CancelResult where
  | missingParams
  | notFound
  | invalidState (status : OrderStatus)
  | ok (order : Order)
deriving DecidableEq, Repr

/-- The customer-notes rewrite performed on cancellation: the existing
notes (followed by a separator when non-empty), then `CANCELLED: reason`
when a truthy reason was supplied, else `CANCELLED by customer`. -/
def cancelNotes (oldNotes : String) (reason : Option String) : String :=
  (if oldNotes ≠ "" then oldNotes ++ " | " else "") ++
    (match reason with
     | some r => "CANCELLED: " ++ r
     | none => "CANCELLED by customer")

/-- `POST /api/orders/cancel`: find the order by number and owning
customer; reject when its status is neither `pending` nor `confirmed`;
otherwise set the status to `cancelled` and rewrite the customer notes. -/
def cancelOrder (orderNumber : Option String) (customerId : Option ℕ)
    (reason : Option String) (orders : List Order) : CancelResult × List Order :=
  match orderNumber, customerId with
  | some onum, some cid =>
    match orders.find? (fun o => decide (o.orderNumber = onum ∧ o.customer = cid)) with
    | none => (CancelResult.notFound, orders)
    | some order =>
      if ¬ (order.status = OrderStatus.pending ∨ order.status = OrderStatus.confirmed) then
        (CancelResult.invalidState order.status, orders)
      else
        let updated := { order with
          status := OrderStatus.cancelled
          customerNotes := cancelNotes order.customerNotes reason }
        (CancelResult.ok updated, orders.map (fun o => if o.id = order.id then updated else o))
  | _, _ => (CancelResult.missingParams, orders)

/-! ## Derived definitions used by the statements -/

/-- Whether a checkout response is a success. -/
def isSuccess : CheckoutResult → Bool
  | CheckoutResult.success _ _ _ => true
  | _ => false

/-- Run a sequence of checkout requests (each with its submission time)
through the data store, in order. -/
def runCheckouts : List (CheckoutRequest × ℤ) → DBState → DBState
  | [], st => st
  | (r, t) :: rest, st => runCheckouts rest (checkout r t st).2

/-- Whether every checkout of the sequence succeeds when run in order. -/
def allSucceed : List (CheckoutRequest × ℤ) → DBState → Bool
  | [], _ => true
  | (r, t) :: rest, st => isSuccess (checkout r t st).1 && allSucceed rest (checkout r t st).2

/-- The aggregate statistics of a customer record: total orders, total
spent, loyalty points, last order date. -/
def aggView (c : Customer) : ℚ × ℚ × ℚ × Option ℤ :=
  (c.totalOrders, c.totalSpent, c.loyaltyPoints, c.lastOrderDate)

/-- A cart line the item loop rejects: no id, or an id no product record
carries. -/
def badItem (products : List FoodItem) (item : CartItem) : Bool :=
  match item.id with
  | none => true
  | some pid => (products.find? (fun p => decide (p.id = pid))).isNone

/-- The error message the item loop produces for a rejected cart line. -/
def itemErrMsg (item : CartItem) : String :=
  match item.id with
  | none => "Item missing ID: " ++ item.name
  | some pid => "Food item with ID " ++ pid ++ " not found"

/-! ## Concrete fixtures for witnesses and counterexamples -/

/-- A product at price 10 with a permanently active 20% offer. -/
def itemPct20 : FoodItem :=
  { id := "p1", name := "Cake", price := 10, isOnOffer := true
    discountType := some DiscountType.percentage, discountValue := some 20
    offerStartDate := none, offerEndDate := none, isAvailable := true }

/-- A price-zero product with a permanently active fixed discount. -/
def itemFreeFixed : FoodItem :=
  { id := "p0", name := "Sample", price := 0, isOnOffer := true
    discountType := some DiscountType.fixed, discountValue := some 10
    offerStartDate := none, offerEndDate := none, isAvailable := true }

/-- A store configuration with delivery enabled, fee 1 and free-delivery
threshold 50. -/
def cfgThreshold50 : StoreConfig :=
  { serviceOptions := some { enableDelivery := some true, enablePickup := some true,
                             deliveryFee := some 1, freeDeliveryThreshold := some 50 }
    taxRate := some 0, minOrderAmount := 5 }

/-- A pending pickup order used by the cancellation witness. -/
def pendingOrder : Order :=
  { id := 1, orderNumber := "ORD-5", customer := 7, items := []
    totalAmount := 6, status := OrderStatus.pending, bookingDate := 0
    customerNotes := "hi", serviceType := ServiceType.pickup
    paymentStatus := PaymentStatus.pending, deliveryAddress := none }

/-- A plain product at price 7 with no offer. -/
def plainProduct : FoodItem :=
  { id := "pA", name := "Biryani", price := 7, isOnOffer := false
    discountType := none, discountValue := none
    offerStartDate := none, offerEndDate := none, isAvailable := true }

/-- A store holding only `plainProduct` and no customers. -/
def emptyStore : DBState :=
  { customers := [], products := [plainProduct], orders := [], nextId := 10 }

/-- A cart of two units of `plainProduct` (with a client-claimed line
price of 3 that checkout must ignore). -/
def baseItems : List CartItem :=
  [{ id := some "pA", name := "Biryani", price := 3, quantity := 2 }]

/-- A well-formed pickup checkout request for `baseItems`, booked 48
hours out. -/
def baseRequest : CheckoutRequest :=
  { items := some baseItems
    customerInfo := some { email := "amal@example.com", password := "secret1"
                           firstName := "Amal", lastName := "R", phone := "991" }
    deliveryAddress := none
    serviceType := some ServiceType.pickup
    bookingDate := some 172800000
    customerNotes := some "ring twice"
    totalAmount := some 6 }

/-- `baseRequest` with `bookingDate` only 23 hours out. -/
def req23h : CheckoutRequest := { baseRequest with bookingDate := some 82800000 }

/-- `baseRequest` with an empty (but present) items array. -/
def reqEmptyItems : CheckoutRequest := { baseRequest with items := some [] }

/-- A cart naming a product id absent from the store. -/
def ghostItems : List CartItem :=
  [{ id := some "zz", name := "Ghost", price := 1, quantity := 1 }]

/-- `baseRequest` with an unknown product id. -/
def reqBadItem : CheckoutRequest := { baseRequest with items := some ghostItems }

/-- The order `checkout baseRequest 0 emptyStore` persists. -/
def c1Order : Order :=
  { id := 11, orderNumber := "ORD-0", customer := 10,
    items := [{ foodItem := "pA", quantity := 2, price := 7, subtotal := 14 }],
    totalAmount := 14, status := OrderStatus.pending, bookingDate := 172800000,
    customerNotes := "ring twice", serviceType := ServiceType.pickup,
    paymentStatus := PaymentStatus.pending, deliveryAddress := none }

/-- The customer record `checkout baseRequest 0 emptyStore` creates
(pre-aggregate-update, as returned in the response). -/
def c1Customer : Customer :=
  { id := 10, email := "amal@example.com", password := "secret1", firstName := "Amal",
    lastName := "R", phone := "991", isActive := true, defaultAddress := none,
    totalOrders := 0, totalSpent := 0, loyaltyPoints := 0, lastOrderDate := none }

/-- The customer record after the aggregate update of
`checkout baseRequest 0 emptyStore`. -/
def c1CustomerAfter : Customer :=
  { c1Customer with totalOrders := 1, totalSpent := 14, loyaltyPoints := 14, lastOrderDate := some 0 }

/-- The store state after `checkout baseRequest 0 emptyStore`. -/
def c1FinalState : DBState :=
  { customers := [c1CustomerAfter], products := [plainProduct], orders := [c1Order], nextId := 12 }

/-- The state after only the customer-creation write of a checkout from
`emptyStore`: reached by runs that are rejected after the upsert. -/
def customerOnlyState : DBState :=
  { customers := [c1Customer], products := [plainProduct], orders := [], nextId := 11 }

/-- The upsert outcome of `baseRequest` against `emptyStore`. -/
def baseUpsert : UpsertOutcome :=
  { customer := c1Customer, isNew := true, state := customerOnlyState }

/-- The single order line produced for `baseItems`. -/
def c1Line : OrderItem := { foodItem := "pA", quantity := 2, price := 7, subtotal := 14 }

/-! ## Offer evaluator: helper lemmas -/

theorem isOfferActive_discount_pos {item : FoodItem} {now : ℤ}
    (h : isOfferActive item now = true) :
    ∃ v, item.discountValue = some v ∧ 0 < v := by
  unfold isOfferActive at h
  by_cases hc : ¬ item.isOnOffer ∨ ¬ truthyQ item.discountValue ∨ item.discountValue.getD 0 ≤ 0
  · rw [if_pos hc] at h
    exact absurd h (by simp)
  · push_neg at hc
    obtain ⟨_, _, hpos⟩ := hc
    cases hdv : item.discountValue with
    | none => rw [hdv] at hpos; simp at hpos
    | some v =>
      rw [hdv] at hpos
      simp at hpos
      exact ⟨v, rfl, hpos⟩

theorem getEffectivePrice_nonneg (item : FoodItem) (now : ℤ) (hp : 0 ≤ item.price) :
    0 ≤ getEffectivePrice item now := by
  unfold getEffectivePrice
  split
  · exact hp
  · split
    · exact le_max_left 0 _
    · split
      · exact le_max_left 0 _
      · exact hp

theorem getEffectivePrice_le (item : FoodItem) (now : ℤ) (hp : 0 ≤ item.price) :
    getEffectivePrice item now ≤ item.price := by
  unfold getEffectivePrice
  split
  · exact le_rfl
  case isFalse hact =>
    have hact' : isOfferActive item now = true := by
      by_contra hne
      exact hact (by simpa using hne)
    obtain ⟨v, hv, hvpos⟩ := isOfferActive_discount_pos hact'
    split
    · rw [hv]
      refine max_le hp (sub_le_self _ ?_)
      have : (0:ℚ) ≤ item.price * v := mul_nonneg hp hvpos.le
      simp only [Option.getD_some]
      positivity
    · split
      · rw [hv]
        simp only [Option.getD_some]
        exact max_le hp (sub_le_self _ hvpos.le)
      · exact le_rfl

/-- When the price is zero the savings amount is zero: the effective
price is also clamped into `[0, 0]`. -/
theorem getSavingsAmount_of_price_zero (item : FoodItem) (now : ℤ)
    (h0 : item.price = 0) : getSavingsAmount item now = 0 := by
  unfold getSavingsAmount
  split
  · rfl
  · have hnn := getEffectivePrice_nonneg item now (le_of_eq h0.symm)
    have hle := getEffectivePrice_le item now (le_of_eq h0.symm)
    rw [h0] at hle ⊢
    rw [le_antisymm hle hnn]
    ring

/-- Claim C2: for every product and evaluation time, the effective price
is the raw price when no offer is active; with an active offer it is
`price - price*discountValue/100` (percentage) resp. `price -
discountValue` (fixed), clamped to be nonnegative; and it always lies
between 0 and the raw price.  The price is nonnegative by the product
collection's `min: 0` validation. -/
theorem c2_effective_price (item : FoodItem) (now : ℤ) (hp : 0 ≤ item.price) :
    (isOfferActive item now = false → getEffectivePrice item now = item.price) ∧
    (∀ v, isOfferActive item now = true → item.discountValue = some v →
      (item.discountType = some DiscountType.percentage →
        getEffectivePrice item now = max 0 (item.price - item.price * v / 100)) ∧
      (item.discountType = some DiscountType.fixed →
        getEffectivePrice item now = max 0 (item.price - v))) ∧
    0 ≤ getEffectivePrice item now ∧ getEffectivePrice item now ≤ item.price := by
  refine ⟨?_, ?_, getEffectivePrice_nonneg item now hp, getEffectivePrice_le item now hp⟩
  · intro h
    simp [getEffectivePrice, h]
  · intro v hact hv
    obtain ⟨v', hv', hvpos⟩ := isOfferActive_discount_pos hact
    rw [hv] at hv'
    injection hv' with hvv
    subst hvv
    constructor <;> intro hdt
    · simp [getEffectivePrice, hact, hdt, hv, truthyQ, hvpos.ne']
    · simp [getEffectivePrice, hact, hdt, hv, truthyQ, hvpos.ne']

/-- Witness for C2 at a concrete product (price 10, 20% active offer). -/
theorem c2_effective_price_witness :
    (0:ℚ) ≤ itemPct20.price ∧
    0 ≤ getEffectivePrice itemPct20 0 ∧ getEffectivePrice itemPct20 0 ≤ itemPct20.price :=
  ⟨by decide, (c2_effective_price itemPct20 0 (by decide)).2.2⟩

/-- Claim C9 (amended): the savings percentage is
`round(100*savings/price)` whenever the price is nonzero (in particular
0 for an inactive offer); but for a price-zero product with an active
offer the division by zero is not guarded and the result is `NaN`, not
0; with no active offer the guard returns 0 even at price 0. -/
theorem c9_savings_percentage (item : FoodItem) (now : ℤ) :
    (item.price ≠ 0 →
      getSavingsPercentage item now =
        JSNum.num ((⌊100 * getSavingsAmount item now / item.price + 1/2⌋ : ℤ) : ℚ)) ∧
    (item.price = 0 → isOfferActive item now = true →
      getSavingsPercentage item now = JSNum.nan) ∧
    (item.price = 0 → isOfferActive item now = false →
      getSavingsPercentage item now = JSNum.num 0) := by
  refine ⟨?_, ?_, ?_⟩
  · intro hp
    unfold getSavingsPercentage
    split
    case isTrue h =>
      have hs : getSavingsAmount item now = 0 := by simp [getSavingsAmount, h]
      rw [hs]
      norm_num
    case isFalse h =>
      rw [show jsDiv (getSavingsAmount item now) item.price
            = JSNum.num (getSavingsAmount item now / item.price) from by
          simp [jsDiv, hp]]
      simp only [jsMulPos, jsRound, JSNum.num.injEq]
      rw [show getSavingsAmount item now / item.price * 100
            = 100 * getSavingsAmount item now / item.price from by ring]
  · intro hp hact
    unfold getSavingsPercentage
    rw [if_neg (by simp [hact])]
    rw [getSavingsAmount_of_price_zero item now hp, hp]
    simp [jsDiv, jsMulPos, jsRound]
  · intro _ hact
    simp [getSavingsPercentage, hact]

/-- Counterexample for C9: a price-zero product with an active fixed
discount yields `NaN`, not 0 — the division-by-zero case is not
guarded. -/
theorem c9_counterexample :
    getSavingsPercentage itemFreeFixed 0 = JSNum.nan ∧ JSNum.nan ≠ JSNum.num 0 := by
  refine ⟨?_, by simp⟩
  norm_num [getSavingsPercentage, getSavingsAmount, getEffectivePrice, isOfferActive,
    truthyQ, itemFreeFixed, jsDiv, jsMulPos, jsRound, max_def]

/-- Witness for C9 (amended) at a concrete product: price 10 with an
active 20% offer gives a savings percentage of 20. -/
theorem c9_savings_percentage_witness :
    itemPct20.price ≠ 0 ∧
    getSavingsPercentage itemPct20 0 =
      JSNum.num ((⌊100 * getSavingsAmount itemPct20 0 / itemPct20.price + 1/2⌋ : ℤ) : ℚ) ∧
    getSavingsPercentage itemPct20 0 = JSNum.num 20 := by
  refine ⟨by decide, (c9_savings_percentage itemPct20 0).1 (by decide), ?_⟩
  norm_num [getSavingsPercentage, getSavingsAmount, getEffectivePrice, isOfferActive,
    truthyQ, itemPct20, jsDiv, jsMulPos, jsRound, max_def]

/-- Claim C8: the delivery fee is 0 for pickup or when delivery is
disabled; 0 when a positive free-delivery threshold is met by the
subtotal; otherwise the configured fee — with the spec's concrete
instances at threshold 50 and fee 1. -/
theorem c8_delivery_fee (subtotal : ℚ) (serviceType : ServiceType) (config : StoreConfig) :
    ((serviceType = ServiceType.pickup ∨ isDeliveryEnabled config = false) →
      calculateDeliveryFee subtotal serviceType config = 0) ∧
    (0 < (config.serviceOptions.bind ServiceOptions.freeDeliveryThreshold).getD 0 →
      (config.serviceOptions.bind ServiceOptions.freeDeliveryThreshold).getD 0 ≤ subtotal →
      calculateDeliveryFee subtotal serviceType config = 0) ∧
    (serviceType = ServiceType.delivery → isDeliveryEnabled config = true →
      ¬ (0 < (config.serviceOptions.bind ServiceOptions.freeDeliveryThreshold).getD 0 ∧
          (config.serviceOptions.bind ServiceOptions.freeDeliveryThreshold).getD 0 ≤ subtotal) →
      calculateDeliveryFee subtotal serviceType config =
        (config.serviceOptions.bind ServiceOptions.deliveryFee).getD 0) ∧
    calculateDeliveryFee 60 ServiceType.delivery cfgThreshold50 = 0 ∧
    calculateDeliveryFee 40 ServiceType.delivery cfgThreshold50 = 1 ∧
    (∀ s : ℚ, calculateDeliveryFee s ServiceType.pickup cfgThreshold50 = 0) := by
  refine ⟨?_, ?_, ?_, by decide, by decide, fun s => ?_⟩
  · rintro (h | h) <;> simp [calculateDeliveryFee, h]
  · intro h1 h2
    by_cases hp : serviceType = ServiceType.pickup ∨ ¬ isDeliveryEnabled config = true
    · rcases hp with h | h <;> simp [calculateDeliveryFee, h]
    · push_neg at hp
      simp [calculateDeliveryFee, hp.1, hp.2, h1, h2]
  · intro h1 h2 h3
    simp [calculateDeliveryFee, h1, h2, h3]
  · simp [calculateDeliveryFee]

/-- Witness for C8: at a concrete pickup request the fee is 0. -/
theorem c8_delivery_fee_witness :
    (ServiceType.pickup = ServiceType.pickup ∨ isDeliveryEnabled cfgThreshold50 = false) ∧
    calculateDeliveryFee 99 ServiceType.pickup cfgThreshold50 = 0 :=
  ⟨Or.inl rfl, (c8_delivery_fee 99 ServiceType.pickup cfgThreshold50).1 (Or.inl rfl)⟩

/-- Claim C7: for a cancellation request whose order is found for the
requesting customer, a status outside `{pending, confirmed}` is rejected
with the invalid-state error and the store is unchanged; a pending or
confirmed order is set to `cancelled` with the reason appended to its
customer notes. -/
theorem c7_cancel (orders : List Order) (onum : String) (cid : ℕ) (reason : Option String)
    (o : Order)
    (hfind : orders.find? (fun x => decide (x.orderNumber = onum ∧ x.customer = cid)) = some o) :
    (¬ (o.status = OrderStatus.pending ∨ o.status = OrderStatus.confirmed) →
      cancelOrder (some onum) (some cid) reason orders =
        (CancelResult.invalidState o.status, orders)) ∧
    ((o.status = OrderStatus.pending ∨ o.status = OrderStatus.confirmed) →
      ∃ o', cancelOrder (some onum) (some cid) reason orders =
          (CancelResult.ok o', orders.map (fun x => if x.id = o.id then o' else x)) ∧
        o'.status = OrderStatus.cancelled ∧
        o'.customerNotes = cancelNotes o.customerNotes reason) := by
  constructor
  · intro hst
    simp only [cancelOrder, hfind]
    rw [if_pos hst]
  · intro hst
    let upd : Order :=
      { o with status := OrderStatus.cancelled, customerNotes := cancelNotes o.customerNotes reason }
    refine ⟨upd, ?_, rfl, rfl⟩
    simp only [cancelOrder, hfind]
    rw [if_neg (not_not_intro hst)]

/-- Witness for C7: cancelling a concrete pending order succeeds and
rewrites its notes. -/
theorem c7_cancel_witness :
    ([pendingOrder].find? (fun x => decide (x.orderNumber = "ORD-5" ∧ x.customer = 7))
        = some pendingOrder) ∧
    (pendingOrder.status = OrderStatus.pending ∨ pendingOrder.status = OrderStatus.confirmed) ∧
    (∃ o', cancelOrder (some "ORD-5") (some 7) (some "too late") [pendingOrder] =
        (CancelResult.ok o',
          [pendingOrder].map (fun x => if x.id = pendingOrder.id then o' else x)) ∧
      o'.status = OrderStatus.cancelled ∧
      o'.customerNotes = cancelNotes pendingOrder.customerNotes (some "too late")) :=
  ⟨by decide, Or.inl rfl,
    (c7_cancel [pendingOrder] "ORD-5" 7 (some "too late") pendingOrder (by decide)).2
      (Or.inl rfl)⟩

/-! ## Checkout path: list and stage lemmas -/

/-- Two customer records of an id-unique list with the same id are
equal. -/
theorem customer_eq_of_ids_nodup {l : List Customer}
    (hnd : (l.map Customer.id).Nodup) {a b : Customer}
    (ha : a ∈ l) (hb : b ∈ l) (hid : a.id = b.id) : a = b :=
  List.inj_on_of_nodup_map hnd ha hb hid

/-- Updating a customer by id keeps the id column unchanged when the
replacement carries the same id. -/
theorem updateCustomerById_map_id (l : List Customer) (i : ℕ) (c' : Customer)
    (hc' : c'.id = i) :
    (updateCustomerById l i c').map Customer.id = l.map Customer.id := by
  unfold updateCustomerById
  rw [List.map_map]
  apply List.map_congr_left
  intro c _
  by_cases h : c.id = i <;> simp [h, hc']

/-- Updating a customer by id with a record of equal aggregates keeps
the aggregate column unchanged, given id-uniqueness. -/
theorem updateCustomerById_map_aggView {l : List Customer} {c0 c' : Customer}
    (hnd : (l.map Customer.id).Nodup) (hc0 : c0 ∈ l)
    (hagg : aggView c' = aggView c0) :
    (updateCustomerById l c0.id c').map aggView = l.map aggView := by
  unfold updateCustomerById
  rw [List.map_map]
  apply List.map_congr_left
  intro c hc
  by_cases h : c.id = c0.id
  · have : c = c0 := customer_eq_of_ids_nodup hnd hc hc0 h
    simp [h, hagg, this]
  · simp [h]

/-- A customer whose id differs from the updated one is untouched. -/
theorem mem_updateCustomerById_of_ne {l : List Customer} {c : Customer} (i : ℕ)
    (c' : Customer) (hc : c ∈ l) (hne : c.id ≠ i) :
    c ∈ updateCustomerById l i c' :=
  List.mem_map.mpr ⟨c, hc, by simp [hne]⟩

/-- When no element of the first list matches, `find?` over an append
searches the second list. -/
theorem find?_append_of_none {α : Type} (l l' : List α) (p : α → Bool)
    (h : l.find? p = none) : (l ++ l').find? p = l'.find? p := by
  induction l with
  | nil => simp
  | cons a t ih =>
    cases hp : p a with
    | true => simp [List.find?_cons, hp] at h
    | false =>
      simp only [List.cons_append, List.find?_cons, hp] at h ⊢
      exact ih h

/-- Updating an id that no element of the prefix carries only touches
the appended record. -/
theorem updateCustomerById_append (l : List Customer) (c : Customer) (i : ℕ)
    (c' : Customer) (h : ∀ x ∈ l, x.id ≠ i) :
    updateCustomerById (l ++ [c]) i c' = l ++ [if c.id = i then c' else c] := by
  unfold updateCustomerById
  rw [List.map_append]
  have h1 : l.map (fun x => if x.id = i then c' else x) = l := by
    have h2 : l.map (fun x => if x.id = i then c' else x) = l.map id := by
      apply List.map_congr_left
      intro x hx
      simp [h x hx]
    rw [h2, List.map_id]
  rw [h1]
  rfl
/-- After an id-keyed update whose replacement keeps the found
customer's email, the email search finds the replacement, given
id-uniqueness. -/
theorem find?_updateCustomerById (l : List Customer) (c0 c' : Customer) (e : String)
    (hnd : (l.map Customer.id).Nodup)
    (hf : l.find? (fun c => decide (c.email = e)) = some c0)
    (he : c'.email = c0.email) :
    (updateCustomerById l c0.id c').find? (fun c => decide (c.email = e)) = some c' := by
  induction l with
  | nil => simp at hf
  | cons a t ih =>
    rw [List.find?_cons] at hf
    cases hp : (decide (a.email = e) : Bool) with
    | true =>
      rw [hp] at hf
      injection hf with hac
      subst hac
      unfold updateCustomerById
      simp only [List.map_cons, if_pos trivial, eq_self_iff_true]
      have hc' : decide (c'.email = e) = true := by rw [he]; exact hp
      rw [List.find?_cons, hc']
    | false =>
      rw [hp] at hf
      have hc0t : c0 ∈ t := List.mem_of_find?_eq_some hf
      have hnd' : (a.id :: t.map Customer.id).Nodup := by simpa using hnd
      have hane : ¬ a.id = c0.id := by
        intro hcontra
        exact (List.nodup_cons.mp hnd').1
          (hcontra ▸ List.mem_map_of_mem Customer.id hc0t)
      have htnd : (t.map Customer.id).Nodup := (List.nodup_cons.mp hnd').2
      unfold updateCustomerById
      simp only [List.map_cons, if_neg hane]
      rw [List.find?_cons, hp]
      exact ih htnd hf

/-- What a successful item loop produces: the accumulated total is the
sum of the line subtotals, and each line is priced from the
authoritative product record found for the corresponding cart line. -/
theorem processItems_ok (products : List FoodItem) :
    ∀ (items : List CartItem) (lines : List OrderItem) (total : ℚ),
    processItems products items = Except.ok (lines, total) →
    total = (lines.map OrderItem.subtotal).sum ∧
    List.Forall₂ (fun (item : CartItem) (line : OrderItem) =>
      ∃ p, p ∈ products ∧ item.id = some p.id ∧ line.foodItem = p.id ∧
        line.price = p.price ∧ line.quantity = item.quantity ∧
        line.subtotal = p.price * item.quantity) items lines := by
  intro items
  induction items with
  | nil =>
    intro lines total h
    simp only [processItems, Except.ok.injEq, Prod.mk.injEq] at h
    obtain ⟨h1, h2⟩ := h
    subst h1
    subst h2
    simp
  | cons item rest ih =>
    intro lines total h
    unfold processItems at h
    cases hid : item.id with
    | none => simp only [hid] at h; exact absurd h (by simp)
    | some pid =>
      simp only [hid] at h
      cases hfind : products.find? (fun p => decide (p.id = pid)) with
      | none => simp only [hfind] at h; exact absurd h (by simp)
      | some p =>
        simp only [hfind] at h
        cases hrec : processItems products rest with
        | error msg => simp only [hrec] at h; exact absurd h (by simp)
        | ok pr =>
          obtain ⟨lines', total'⟩ := pr
          simp only [hrec] at h
          simp only [Except.ok.injEq, Prod.mk.injEq] at h
          obtain ⟨h1, h2⟩ := h
          subst h1
          subst h2
          have hpid : p.id = pid := by
            have hdec := List.find?_some hfind
            simpa using hdec
          refine ⟨?_, List.Forall₂.cons
            ⟨p, List.mem_of_find?_eq_some hfind, by rw [hid, hpid], rfl, rfl, rfl, rfl⟩
            (ih lines' total' hrec).2⟩
          have hsum := (ih lines' total' hrec).1
          simp [hsum]

/-- When some cart line is rejectable, the item loop fails naming a
rejectable line of the cart. -/
theorem processItems_error_of_bad (products : List FoodItem) :
    ∀ items : List CartItem, (∃ item ∈ items, badItem products item = true) →
    ∃ item ∈ items, badItem products item = true ∧
      processItems products items = Except.error (itemErrMsg item) := by
  intro items
  induction items with
  | nil => rintro ⟨item, hmem, _⟩; simp at hmem
  | cons it rest ih =>
    rintro ⟨item, hmem, hbad⟩
    by_cases hb : badItem products it = true
    · refine ⟨it, List.mem_cons_self it rest, hb, ?_⟩
      unfold badItem at hb
      unfold processItems itemErrMsg
      cases hid : it.id with
      | none => simp only [hid]
      | some pid =>
        simp only [hid] at hb ⊢
        cases hfind : products.find? (fun p => decide (p.id = pid)) with
        | none => simp only [hfind]
        | some p => simp only [hfind] at hb; simp at hb
    · have hrest : ∃ x ∈ rest, badItem products x = true := by
        rcases List.mem_cons.mp hmem with heq | hm
        · exact absurd (heq ▸ hbad) hb
        · exact ⟨item, hm, hbad⟩
      obtain ⟨x, hx, hxbad, herr⟩ := ih hrest
      refine ⟨x, List.mem_cons_of_mem _ hx, hxbad, ?_⟩
      unfold badItem at hb
      unfold processItems
      cases hid : it.id with
      | none => simp only [hid] at hb; simp at hb
      | some pid =>
        simp only [hid] at hb ⊢
        cases hfind : products.find? (fun p => decide (p.id = pid)) with
        | none => simp only [hfind] at hb; simp at hb
        | some p => simp only [hfind, herr]

/-- Complete characterization of a successful customer upsert: products
and orders are untouched; an existing customer (found by email) keeps
its id and aggregates and only its contact fields change; a missing
customer is appended with zeroed aggregates and the next fresh id. -/
theorem upsertCustomer_ok_cases (st : DBState) (ci : CustomerInfo) (sty : ServiceType)
    (da : Option Address) (u : UpsertOutcome)
    (h : upsertCustomer st ci sty da = Except.ok u) :
    u.state.products = st.products ∧ u.state.orders = st.orders ∧
    u.customer.email = ci.email ∧
    ((∃ c0, st.customers.find? (fun c => decide (c.email = ci.email)) = some c0 ∧
        u.isNew = false ∧ u.customer.id = c0.id ∧
        aggView u.customer = aggView c0 ∧
        u.state.customers = updateCustomerById st.customers c0.id u.customer ∧
        u.state.nextId = st.nextId) ∨
      (st.customers.find? (fun c => decide (c.email = ci.email)) = none ∧
        u.isNew = true ∧ u.customer.id = st.nextId ∧
        aggView u.customer = (0, 0, 0, none) ∧
        u.state.customers = st.customers ++ [u.customer] ∧
        u.state.nextId = st.nextId + 1)) := by
  unfold upsertCustomer at h
  cases hf : st.customers.find? (fun c => decide (c.email = ci.email)) with
  | some c0 =>
    simp only [hf] at h
    injection h with hu
    subst hu
    have he : c0.email = ci.email := by
      have hdec := List.find?_some hf
      simpa using hdec
    exact ⟨rfl, rfl, he, Or.inl ⟨c0, rfl, rfl, rfl, rfl, rfl, rfl⟩⟩
  | none =>
    simp only [hf] at h
    split at h
    · exact absurd h (by simp)
    · injection h with hu
      subst hu
      exact ⟨rfl, rfl, rfl, Or.inr ⟨rfl, rfl, rfl, rfl, rfl, rfl⟩⟩

/-- The checkout route unfolded one stage at a time, for a request that
passes the presence checks. -/
theorem checkout_eq (items : List CartItem) (ci : CustomerInfo)
    (da : Option Address) (sty : ServiceType) (bd : ℤ) (cn : Option String)
    (ta : Option ℚ) (now : ℤ) (st : DBState) :
    checkout ⟨some items, some ci, da, some sty, some bd, cn, ta⟩ now st =
      if sty = ServiceType.delivery ∧ addressIncomplete da then
        (CheckoutResult.validationError "Missing required delivery address information", st)
      else
        match upsertCustomer st ci sty da with
        | Except.error msg => (CheckoutResult.customerError msg, st)
        | Except.ok u =>
          match processItems u.state.products items with
          | Except.error msg => (CheckoutResult.itemError msg, u.state)
          | Except.ok (orderItems, calculatedTotal) =>
            if ((bd - now : ℤ) : ℚ) / (1000 * 3600) < 24 then
              (CheckoutResult.schedulingError, u.state)
            else
              createOrderStep u orderItems calculatedTotal sty bd da cn ci now := rfl

/-- Claim C10: two checkout requests differing only in the
client-claimed top-level `totalAmount` field behave identically — the
same response and the same resulting store state, because the
server-computed total is used everywhere. -/
theorem c10_total_amount_ignored (req : CheckoutRequest) (now : ℤ) (st : DBState)
    (a b : Option ℚ) :
    checkout { req with totalAmount := a } now st
      = checkout { req with totalAmount := b } now st := by
  cases req
  rfl

/-- Claim C1: every successful checkout prices each persisted order line
from the authoritative product record's raw `price` field (the
client-claimed line price is discarded and the effective discounted
price is not used), each line subtotal is that raw price times the
requested quantity, and the order's `totalAmount` is the sum of the line
subtotals. -/
theorem c1_checkout_repricing (req : CheckoutRequest) (now : ℤ) (st : DBState)
    (o : Order) (c : Customer) (isNew : Bool) (st' : DBState)
    (h : checkout req now st = (CheckoutResult.success o c isNew, st')) :
    o.totalAmount = (o.items.map OrderItem.subtotal).sum ∧
    ∃ items, req.items = some items ∧
      List.Forall₂ (fun (item : CartItem) (line : OrderItem) =>
        ∃ p, p ∈ st.products ∧ item.id = some p.id ∧ line.foodItem = p.id ∧
          line.price = p.price ∧ line.quantity = item.quantity ∧
          line.subtotal = p.price * item.quantity) items o.items := by
  obtain ⟨oitems, oci, da, osty, obd, cn, ta⟩ := req
  cases oitems with
  | none => exact absurd h (by simp [checkout])
  | some items =>
  cases oci with
  | none => exact absurd h (by simp [checkout])
  | some ci =>
  cases obd with
  | none => exact absurd h (by simp [checkout])
  | some bd =>
  cases osty with
  | none => exact absurd h (by simp [checkout])
  | some sty =>
  rw [checkout_eq] at h
  split at h
  · exact absurd h (by simp)
  · split at h
    next msg heq => exact absurd h (by simp)
    next u heq =>
      split at h
      next msg heq2 => exact absurd h (by simp)
      next orderItems calculatedTotal heq2 =>
        split at h
        · exact absurd h (by simp)
        · unfold createOrderStep at h
          split at h
          · exact absurd h (by simp)
          · simp only [Prod.mk.injEq, CheckoutResult.success.injEq] at h
            obtain ⟨⟨ho, hcu, hnew⟩, hst'⟩ := h
            subst ho
            obtain ⟨hprod, -, -, -⟩ := upsertCustomer_ok_cases st ci sty da u heq
            obtain ⟨hsum, hfa⟩ :=
              processItems_ok u.state.products items orderItems calculatedTotal heq2
            rw [hprod] at hfa
            exact ⟨hsum, items, rfl, hfa⟩

/-- Updating an id twice in a row keeps only the second update when the
first replacement already carries that id. -/
theorem updateCustomerById_comp (l : List Customer) (i j : ℕ) (a b : Customer)
    (ha : a.id = i) (hj : j = i) :
    updateCustomerById (updateCustomerById l i a) j b = updateCustomerById l i b := by
  unfold updateCustomerById
  rw [List.map_map]
  apply List.map_congr_left
  intro c _
  by_cases h : c.id = i <;> simp [h, ha, hj]

/-- An id-keyed update whose replacement keeps the id preserves any
strict upper bound on the id column. -/
theorem updateCustomerById_id_bound {l : List Customer} {i : ℕ} {b : Customer} {n : ℕ}
    (hb : b.id = i) (hlt : ∀ c ∈ l, c.id < n) :
    ∀ x ∈ updateCustomerById l i b, x.id < n := by
  intro x hx
  have hmapped : x.id ∈ (updateCustomerById l i b).map Customer.id :=
    List.mem_map_of_mem Customer.id hx
  rw [updateCustomerById_map_id l i b hb] at hmapped
  obtain ⟨c, hc, hid⟩ := List.mem_map.mp hmapped
  exact hid ▸ hlt c hc

/-- The replacement itself is a member of the update when the replaced
record was. -/
theorem replacement_mem_updateCustomerById {l : List Customer} {c0 : Customer}
    (b : Customer) (hc0 : c0 ∈ l) : b ∈ updateCustomerById l c0.id b :=
  List.mem_map.mpr ⟨c0, hc0, by simp⟩

/-- Right-to-left projection of a pointwise list relation. -/
theorem forall₂_exists_left {α β : Type} {R : α → β → Prop} :
    ∀ {as : List α} {bs : List β}, List.Forall₂ R as bs → ∀ b ∈ bs, ∃ a ∈ as, R a b := by
  intro as bs h
  induction h with
  | nil => intro b hb; simp at hb
  | cons hR hrest ih =>
    intro b hb
    rcases List.mem_cons.mp hb with rfl | hb'
    · exact ⟨_, List.mem_cons_self _ _, hR⟩
    · obtain ⟨a, ha, hr⟩ := ih b hb'
      exact ⟨a, List.mem_cons_of_mem _ ha, hr⟩

/-- With nonnegative product prices and quantities of at least one, a
successful item loop accumulates a nonnegative total. -/
theorem processItems_total_nonneg {products : List FoodItem} {items : List CartItem}
    {lines : List OrderItem} {total : ℚ}
    (hpnn : ∀ p ∈ products, 0 ≤ p.price)
    (h : processItems products items = Except.ok (lines, total))
    (hq : ∀ line ∈ lines, 1 ≤ line.quantity) : 0 ≤ total := by
  obtain ⟨hsum, hfa⟩ := processItems_ok products items lines total h
  rw [hsum]
  apply List.sum_nonneg
  intro x hx
  obtain ⟨line, hline, hxeq⟩ := List.mem_map.mp hx
  obtain ⟨item, -, p, hp, -, -, -, hqty, hsub⟩ := forall₂_exists_left hfa line hline
  have h1 : (1:ℚ) ≤ item.quantity := hqty ▸ hq line hline
  have hpr : 0 ≤ p.price := hpnn p hp
  rw [← hxeq, hsub]
  exact mul_nonneg hpr (le_trans zero_le_one h1)

/-- The successful customer upsert keeps the id column unique and
bounded by the fresh-id counter, and its returned customer is a member
of the updated store. -/
theorem upsert_invariants (st : DBState) (ci : CustomerInfo) (sty : ServiceType)
    (da : Option Address) (u : UpsertOutcome)
    (hnd : (st.customers.map Customer.id).Nodup)
    (hlt : ∀ c ∈ st.customers, c.id < st.nextId)
    (h : upsertCustomer st ci sty da = Except.ok u) :
    (u.state.customers.map Customer.id).Nodup ∧
    (∀ c ∈ u.state.customers, c.id < u.state.nextId) ∧
    u.customer ∈ u.state.customers := by
  obtain ⟨-, -, -, hcases⟩ := upsertCustomer_ok_cases st ci sty da u h
  rcases hcases with ⟨c0, hf, -, hid, -, hcust, hnix⟩ | ⟨-, -, hid, -, hcust, hnix⟩
  · have hc0 : c0 ∈ st.customers := List.mem_of_find?_eq_some hf
    refine ⟨?_, ?_, ?_⟩
    · rw [hcust, updateCustomerById_map_id st.customers c0.id u.customer hid]
      exact hnd
    · rw [hcust, hnix]
      exact updateCustomerById_id_bound hid hlt
    · rw [hcust]
      exact replacement_mem_updateCustomerById u.customer hc0
  · refine ⟨?_, ?_, ?_⟩
    · rw [hcust, List.map_append]
      simp only [List.map_cons, List.map_nil]
      rw [← List.concat_eq_append]
      refine List.Nodup.concat ?_ hnd
      simp only [List.mem_map, not_exists]
      intro c hc
      have h1 := hlt c hc.1
      have h2 : c.id = st.nextId := by rw [hc.2, hid]
      omega
    · rw [hcust, hnix]
      intro c hc
      rcases List.mem_append.mp hc with hcl | hcr
      · exact lt_trans (hlt c hcl) (by omega)
      · rw [List.mem_singleton.mp hcr, hid]
        omega
    · rw [hcust]
      exact List.mem_append_right _ (List.mem_singleton.mpr rfl)

/-- Complete postcondition of a successful checkout, relative to the
initial store: the order is appended; the owning customer record (found
afterwards by the request email) carries the previous aggregates plus
exactly one order, plus the order total, plus floor(total) loyalty
points, with the last-order date set to now; every other customer is
untouched; the id column stays unique and bounded; and the total is
nonnegative. -/
theorem checkout_success_step (req : CheckoutRequest) (now : ℤ) (st : DBState)
    (o : Order) (cResp : Customer) (isNew : Bool) (st' : DBState)
    (hnd : (st.customers.map Customer.id).Nodup)
    (hlt : ∀ c ∈ st.customers, c.id < st.nextId)
    (hpnn : ∀ p ∈ st.products, 0 ≤ p.price)
    (h : checkout req now st = (CheckoutResult.success o cResp isNew, st')) :
    ∃ ci, req.customerInfo = some ci ∧
      st'.orders = st.orders ++ [o] ∧
      st'.products = st.products ∧
      0 ≤ o.totalAmount ∧
      (∃ c', st'.customers.find? (fun c => decide (c.email = ci.email)) = some c' ∧
        c'.id = o.customer ∧
        c'.totalOrders =
          ((st.customers.find? (fun c => decide (c.email = ci.email))).map
            Customer.totalOrders).getD 0 + 1 ∧
        c'.totalSpent =
          ((st.customers.find? (fun c => decide (c.email = ci.email))).map
            Customer.totalSpent).getD 0 + o.totalAmount ∧
        c'.loyaltyPoints =
          ((st.customers.find? (fun c => decide (c.email = ci.email))).map
            Customer.loyaltyPoints).getD 0 + (⌊o.totalAmount⌋ : ℤ) ∧
        c'.lastOrderDate = some now) ∧
      (∀ c ∈ st.customers, c.id ≠ o.customer → c ∈ st'.customers) ∧
      (st'.customers.map Customer.id).Nodup ∧
      (∀ c ∈ st'.customers, c.id < st'.nextId) ∧
      isNew = (st.customers.find? (fun c => decide (c.email = ci.email))).isNone ∧
      (∀ c0, st.customers.find? (fun c => decide (c.email = ci.email)) = some c0 →
        o.customer = c0.id) ∧
      (st.customers.find? (fun c => decide (c.email = ci.email)) = none →
        ∀ c ∈ st.customers, c.id ≠ o.customer) := by
  obtain ⟨oi, oc, da, os, ob, cn, ta⟩ := req
  cases oi with
  | none => exact absurd h (by simp [checkout])
  | some items =>
  cases oc with
  | none => exact absurd h (by simp [checkout])
  | some ci =>
  cases ob with
  | none => exact absurd h (by simp [checkout])
  | some bd =>
  cases os with
  | none => exact absurd h (by simp [checkout])
  | some sty =>
  rw [checkout_eq] at h
  split at h
  · exact absurd h (by simp)
  · split at h
    next msg heq => exact absurd h (by simp)
    next u heq =>
      split at h
      next msg heq2 => exact absurd h (by simp)
      next lines total heq2 =>
        split at h
        · exact absurd h (by simp)
        · unfold createOrderStep at h
          split at h
          · exact absurd h (by simp)
          next hvalid =>
            simp only [Prod.mk.injEq, CheckoutResult.success.injEq] at h
            obtain ⟨⟨ho, hcu, hnew⟩, hst'⟩ := h
            subst ho
            subst hst'
            have hvalid' : orderDocValid lines = true := by
              by_contra hne
              exact hvalid (by simpa using hne)
            have hq : ∀ line ∈ lines, 1 ≤ line.quantity := by
              unfold orderDocValid at hvalid'
              simp only [decide_eq_true_eq, Bool.and_eq_true, List.all_eq_true] at hvalid'
              exact fun line hl => hvalid'.2 line hl
            obtain ⟨hprod, horders, hmail, hcases⟩ := upsertCustomer_ok_cases st ci sty da u heq
            have htotal : 0 ≤ total :=
              processItems_total_nonneg (by rw [hprod]; exact hpnn) heq2 hq
            refine ⟨ci, rfl, ?_⟩
            dsimp only
            generalize hg : ({ u.customer with
              totalOrders := u.customer.totalOrders + 1
              totalSpent := u.customer.totalSpent + total
              lastOrderDate := some now
              loyaltyPoints := u.customer.loyaltyPoints + (⌊total⌋ : ℤ) } : Customer) = c2
            have hc2o : c2.totalOrders = u.customer.totalOrders + 1 := by rw [← hg]
            have hc2s : c2.totalSpent = u.customer.totalSpent + total := by rw [← hg]
            have hc2l : c2.loyaltyPoints = u.customer.loyaltyPoints + (⌊total⌋ : ℤ) := by
              rw [← hg]
            have hc2d : c2.lastOrderDate = some now := by rw [← hg]
            have hc2id : c2.id = u.customer.id := by rw [← hg]
            have hc2mail : c2.email = u.customer.email := by rw [← hg]
            rcases hcases with ⟨c0, hf, hisnew, hid, hagg, hcust, hnix⟩ |
              ⟨hf, hisnew, hid, hagg, hcust, hnix⟩
            · -- existing customer found by email
              have hc0mail : c0.email = ci.email := by
                have hdec := List.find?_some hf
                simpa using hdec
              simp only [aggView, Prod.mk.injEq] at hagg
              obtain ⟨hg1, hg2, hg3, hg4⟩ := hagg
              have hcomp : updateCustomerById u.state.customers u.customer.id c2
                  = updateCustomerById st.customers c0.id c2 := by
                rw [hcust]
                exact updateCustomerById_comp st.customers c0.id u.customer.id u.customer c2
                  hid hid
              refine ⟨by rw [horders], by rw [hprod], htotal, ?_, ?_, ?_, ?_, ?_, ?_, ?_⟩
              · refine ⟨c2, ?_, hc2id, ?_, ?_, ?_, hc2d⟩
                · rw [hcomp]
                  exact find?_updateCustomerById st.customers c0 c2 ci.email hnd hf
                    (by rw [hc2mail, hmail, hc0mail])
                · rw [hc2o, hg1, hf]
                  simp
                · rw [hc2s, hg2, hf]
                  simp
                · rw [hc2l, hg3, hf]
                  simp
              · intro c hc hcne
                rw [hcomp]
                refine mem_updateCustomerById_of_ne c0.id c2 hc ?_
                intro hx
                exact hcne (hx.trans hid.symm)
              · rw [hcomp, updateCustomerById_map_id st.customers c0.id c2 (hc2id.trans hid)]
                exact hnd
              · intro c hc
                rw [hcomp] at hc
                exact updateCustomerById_id_bound (hc2id.trans hid)
                  (fun x hx => by have h1 := hlt x hx; rw [hnix]; omega) c hc
              · rw [hf, ← hnew, hisnew]
                rfl
              · intro c0' hf'
                rw [hf] at hf'
                injection hf' with hee
                rw [hid, hee]
              · intro hf'
                rw [hf] at hf'
                exact absurd hf' (by simp)
            · -- new customer created
              have hne : ∀ x ∈ st.customers, x.id ≠ u.customer.id := by
                intro x hx
                have := hlt x hx
                rw [hid]
                omega
              have happ : updateCustomerById u.state.customers u.customer.id c2
                  = st.customers ++ [c2] := by
                rw [hcust, updateCustomerById_append st.customers u.customer u.customer.id c2 hne]
                rw [if_pos rfl]
              simp only [aggView, Prod.mk.injEq] at hagg
              obtain ⟨hg1, hg2, hg3, hg4⟩ := hagg
              refine ⟨by rw [horders], by rw [hprod], htotal, ?_, ?_, ?_, ?_, ?_, ?_, ?_⟩
              · refine ⟨c2, ?_, hc2id, ?_, ?_, ?_, hc2d⟩
                · rw [happ, find?_append_of_none st.customers _ _ hf, List.find?_cons]
                  have hpr : decide (c2.email = ci.email) = true := by
                    simp only [decide_eq_true_eq]
                    rw [hc2mail, hmail]
                  rw [hpr]
                · rw [hc2o, hg1, hf]
                  simp
                · rw [hc2s, hg2, hf]
                  simp
                · rw [hc2l, hg3, hf]
                  simp
              · intro c hc _
                rw [happ]
                exact List.mem_append_left _ hc
              · rw [happ, List.map_append]
                simp only [List.map_cons, List.map_nil]
                rw [← List.concat_eq_append]
                refine List.Nodup.concat ?_ hnd
                simp only [List.mem_map, not_exists]
                intro c hc
                have h1 := hlt c hc.1
                have h2 : c.id = st.nextId := by
                  rw [hc.2, hc2id]
                  exact hid
                omega
              · intro c hc
                rw [happ] at hc
                rcases List.mem_append.mp hc with hcl | hcr
                · have := hlt c hcl
                  rw [hnix]
                  omega
                · rw [List.mem_singleton.mp hcr, hc2id, hid, hnix]
                  omega
              · rw [hf, ← hnew, hisnew]
                rfl
              · intro c0' hf'
                rw [hf] at hf'
                exact absurd hf' (by simp)
              · intro _ c hc
                have := hlt c hc
                rw [hid]
                omega

/-- Running a sequence of all-successful checkouts, all for the same
email, from a store already holding that customer: each run appends one
order and adds one to the order count and floor(total) to the loyalty
points of that customer. -/
theorem runCheckouts_totals (e : String) :
    ∀ (runs : List (CheckoutRequest × ℤ)) (st : DBState) (c0 : Customer),
    (st.customers.map Customer.id).Nodup →
    (∀ c ∈ st.customers, c.id < st.nextId) →
    (∀ p ∈ st.products, 0 ≤ p.price) →
    st.customers.find? (fun c => decide (c.email = e)) = some c0 →
    (∀ pr ∈ runs, ∃ ci, pr.1.customerInfo = some ci ∧ ci.email = e) →
    allSucceed runs st = true →
    ∃ newOrders, (runCheckouts runs st).orders = st.orders ++ newOrders ∧
      newOrders.length = runs.length ∧
      ∃ c', (runCheckouts runs st).customers.find? (fun c => decide (c.email = e))
          = some c' ∧
        c'.totalOrders = c0.totalOrders + runs.length ∧
        c'.loyaltyPoints = c0.loyaltyPoints +
          ((newOrders.map (fun o => ⌊o.totalAmount⌋)).sum : ℤ) := by
  intro runs
  induction runs with
  | nil =>
    intro st c0 hnd hlt hpnn hf hemails hsucc
    exact ⟨[], by simp [runCheckouts], rfl, c0, hf, by simp, by simp⟩
  | cons pr rest ih =>
    obtain ⟨r, t⟩ := pr
    intro st c0 hnd hlt hpnn hf hemails hsucc
    simp only [allSucceed, Bool.and_eq_true] at hsucc
    obtain ⟨hs1, hs2⟩ := hsucc
    obtain ⟨o, cR, b, hckr⟩ : ∃ o cR b,
        (checkout r t st).1 = CheckoutResult.success o cR b := by
      cases hck : (checkout r t st).1 <;> rw [hck] at hs1 <;>
        simp [isSuccess] at hs1
      exact ⟨_, _, _, rfl⟩
    have hck2 : checkout r t st = (CheckoutResult.success o cR b, (checkout r t st).2) := by
      rw [← hckr]
    obtain ⟨ci, hci, hord, hprod2, htot,
        ⟨c', hfind', hcid, hto, hts, hlp, hld⟩,
        huntouched, hnd', hlt', hisnew, h7, h8⟩ :=
      checkout_success_step r t st o cR b (checkout r t st).2 hnd hlt hpnn hck2
    obtain ⟨ci', hci', hcie⟩ := hemails (r, t) (List.mem_cons_self _ _)
    have hcie2 : ci.email = e := by
      rw [hci] at hci'
      injection hci' with hcc
      rw [hcc]
      exact hcie
    rw [hcie2] at hfind' hto hts hlp
    rw [hf] at hto hlp
    simp only [Option.map_some', Option.getD_some] at hto hlp
    have hpnn' : ∀ p ∈ (checkout r t st).2.products, 0 ≤ p.price := by
      rw [hprod2]
      exact hpnn
    have hemails' : ∀ pr ∈ rest, ∃ ci, pr.1.customerInfo = some ci ∧ ci.email = e :=
      fun pr hpr => hemails pr (List.mem_cons_of_mem _ hpr)
    obtain ⟨newOrders', hord', hlen', c'', hfind'', hto'', hlp''⟩ :=
      ih (checkout r t st).2 c' hnd' hlt' hpnn' hfind' hemails' hs2
    refine ⟨o :: newOrders', ?_, ?_, c'', ?_, ?_, ?_⟩
    · show (runCheckouts rest (checkout r t st).2).orders = _
      rw [hord', hord, List.append_assoc]
      rfl
    · simp [hlen']
    · exact hfind''
    · rw [hto'', hto]
      simp only [List.length_cons]
      push_cast
      ring
    · rw [hlp'', hlp]
      simp only [List.map_cons, List.sum_cons]
      push_cast
      ring

/-- Running N all-successful checkouts for one email against a store
with no such customer yet: N orders are appended, and the customer ends
with totalOrders = N and loyaltyPoints = the sum of floor(totalAmount)
over the created orders. -/
theorem runCheckouts_fresh (e : String) (runs : List (CheckoutRequest × ℤ)) (st : DBState)
    (hnd : (st.customers.map Customer.id).Nodup)
    (hlt : ∀ c ∈ st.customers, c.id < st.nextId)
    (hpnn : ∀ p ∈ st.products, 0 ≤ p.price)
    (hf : st.customers.find? (fun c => decide (c.email = e)) = none)
    (hemails : ∀ pr ∈ runs, ∃ ci, pr.1.customerInfo = some ci ∧ ci.email = e)
    (hsucc : allSucceed runs st = true) :
    ∃ newOrders, (runCheckouts runs st).orders = st.orders ++ newOrders ∧
      newOrders.length = runs.length ∧
      (runs = [] ∨
        ∃ c', (runCheckouts runs st).customers.find? (fun c => decide (c.email = e))
            = some c' ∧
          c'.totalOrders = runs.length ∧
          c'.loyaltyPoints = ((newOrders.map (fun o => ⌊o.totalAmount⌋)).sum : ℤ)) := by
  cases runs with
  | nil => exact ⟨[], by simp [runCheckouts], rfl, Or.inl rfl⟩
  | cons pr rest =>
    obtain ⟨r, t⟩ := pr
    simp only [allSucceed, Bool.and_eq_true] at hsucc
    obtain ⟨hs1, hs2⟩ := hsucc
    obtain ⟨o, cR, b, hckr⟩ : ∃ o cR b,
        (checkout r t st).1 = CheckoutResult.success o cR b := by
      cases hck : (checkout r t st).1 <;> rw [hck] at hs1 <;>
        simp [isSuccess] at hs1
      exact ⟨_, _, _, rfl⟩
    have hck2 : checkout r t st = (CheckoutResult.success o cR b, (checkout r t st).2) := by
      rw [← hckr]
    obtain ⟨ci, hci, hord, hprod2, htot,
        ⟨c', hfind', hcid, hto, hts, hlp, hld⟩,
        huntouched, hnd', hlt', hisnew, h7, h8⟩ :=
      checkout_success_step r t st o cR b (checkout r t st).2 hnd hlt hpnn hck2
    obtain ⟨ci', hci', hcie⟩ := hemails (r, t) (List.mem_cons_self _ _)
    have hcie2 : ci.email = e := by
      rw [hci] at hci'
      injection hci' with hcc
      rw [hcc]
      exact hcie
    rw [hcie2] at hfind' hto hts hlp
    rw [hf] at hto hlp
    simp only [Option.map_none', Option.getD_none] at hto hlp
    have hpnn' : ∀ p ∈ (checkout r t st).2.products, 0 ≤ p.price := by
      rw [hprod2]
      exact hpnn
    have hemails' : ∀ pr ∈ rest, ∃ ci, pr.1.customerInfo = some ci ∧ ci.email = e :=
      fun pr hpr => hemails pr (List.mem_cons_of_mem _ hpr)
    obtain ⟨newOrders', hord', hlen', c'', hfind'', hto'', hlp''⟩ :=
      runCheckouts_totals e rest (checkout r t st).2 c' hnd' hlt' hpnn' hfind'
        hemails' hs2
    refine ⟨o :: newOrders', ?_, ?_, Or.inr ⟨c'', ?_, ?_, ?_⟩⟩
    · show (runCheckouts rest (checkout r t st).2).orders = _
      rw [hord', hord, List.append_assoc]
      rfl
    · simp [hlen']
    · exact hfind''
    · rw [hto'', hto]
      simp only [List.length_cons]
      push_cast
      ring
    · rw [hlp'', hlp]
      simp only [List.map_cons, List.sum_cons]
      push_cast
      ring

/-- Dissection of the checkout route's resulting state: either nothing
was written, or the customer upsert succeeded and the final state is the
post-upsert state (for the later rejection paths) or the run ended in a
success response. -/
theorem checkout_state_shape (req : CheckoutRequest) (now : ℤ) (st : DBState) :
    (checkout req now st).2 = st ∨
    (∃ ci sty u, req.customerInfo = some ci ∧ req.serviceType = some sty ∧
      upsertCustomer st ci sty req.deliveryAddress = Except.ok u ∧
      ((checkout req now st).2 = u.state ∨
        (∃ o cR b, checkout req now st
          = (CheckoutResult.success o cR b, (checkout req now st).2)))) := by
  obtain ⟨oi, oc, da, os, ob, cn, ta⟩ := req
  cases oi with
  | none => exact Or.inl rfl
  | some items =>
  cases oc with
  | none => exact Or.inl rfl
  | some ci =>
  cases ob with
  | none => exact Or.inl rfl
  | some bd =>
  cases os with
  | none => exact Or.inl rfl
  | some sty =>
  rw [checkout_eq]
  split
  · exact Or.inl rfl
  · cases hu : upsertCustomer st ci sty da with
    | error msg => simp only [hu]; exact Or.inl trivial
    | ok u =>
      simp only [hu]
      refine Or.inr ⟨ci, sty, u, rfl, rfl, hu, ?_⟩
      cases hpi : processItems u.state.products items with
      | error msg => simp only [hpi]; exact Or.inl trivial
      | ok pr =>
        obtain ⟨lines, total⟩ := pr
        simp only [hpi]
        split
        · exact Or.inl rfl
        · unfold createOrderStep
          split
          · exact Or.inl rfl
          · exact Or.inr ⟨_, _, _, rfl⟩

/-- Under any checkout request, every existing customer keeps its id
and its aggregate counters never decrease. -/
theorem checkout_monotone (req : CheckoutRequest) (now : ℤ) (st : DBState)
    (hnd : (st.customers.map Customer.id).Nodup)
    (hlt : ∀ c ∈ st.customers, c.id < st.nextId)
    (hpnn : ∀ p ∈ st.products, 0 ≤ p.price) :
    ∀ c ∈ st.customers, ∃ c', c' ∈ (checkout req now st).2.customers ∧ c'.id = c.id ∧
      c.totalOrders ≤ c'.totalOrders ∧ c.totalSpent ≤ c'.totalSpent ∧
      c.loyaltyPoints ≤ c'.loyaltyPoints := by
  intro c hc
  rcases checkout_state_shape req now st with hst | ⟨ci, sty, u, hci, hsty, hup, hrest⟩
  · exact ⟨c, by rw [hst]; exact hc, rfl, le_rfl, le_rfl, le_rfl⟩
  · obtain ⟨-, -, -, hcases⟩ := upsertCustomer_ok_cases st ci sty req.deliveryAddress u hup
    rcases hrest with hstu | ⟨o, cR, b, hsucc⟩
    · rw [hstu]
      rcases hcases with ⟨c0, hf, -, hid, hagg, hcust, -⟩ | ⟨-, -, -, -, hcust, -⟩
      · by_cases hcid : c.id = c0.id
        · have hc0mem := List.mem_of_find?_eq_some hf
          have hcc0 : c = c0 := customer_eq_of_ids_nodup hnd hc hc0mem hcid
          simp only [aggView, Prod.mk.injEq] at hagg
          refine ⟨u.customer, ?_, by rw [hid, hcc0], ?_, ?_, ?_⟩
          · rw [hcust]
            exact replacement_mem_updateCustomerById u.customer hc0mem
          · rw [hagg.1, hcc0]
          · rw [hagg.2.1, hcc0]
          · rw [hagg.2.2.1, hcc0]
        · refine ⟨c, ?_, rfl, le_rfl, le_rfl, le_rfl⟩
          rw [hcust]
          exact mem_updateCustomerById_of_ne c0.id u.customer hc hcid
      · refine ⟨c, ?_, rfl, le_rfl, le_rfl, le_rfl⟩
        rw [hcust]
        exact List.mem_append_left _ hc
    · obtain ⟨ci2, hci2, hord, hprod2, htot,
          ⟨c', hfind', hcid', hto, hts, hlp, hld⟩,
          huntouched, hnd', hlt', hisnew, h7, h8⟩ :=
        checkout_success_step req now st o cR b (checkout req now st).2 hnd hlt hpnn hsucc
      by_cases hcase : c.id = o.customer
      · cases hfopt : st.customers.find? (fun x => decide (x.email = ci2.email)) with
        | none => exact absurd hcase (h8 hfopt c hc)
        | some c0 =>
          have hoc := h7 c0 hfopt
          have hc0mem := List.mem_of_find?_eq_some hfopt
          have hcc0 : c = c0 := customer_eq_of_ids_nodup hnd hc hc0mem (by rw [hcase, hoc])
          rw [hfopt] at hto hts hlp
          simp only [Option.map_some', Option.getD_some] at hto hts hlp
          refine ⟨c', List.mem_of_find?_eq_some hfind', by rw [hcid', hcase], ?_, ?_, ?_⟩
          · rw [hto, hcc0]
            exact le_add_of_nonneg_right zero_le_one
          · rw [hts, hcc0]
            exact le_add_of_nonneg_right htot
          · rw [hlp, hcc0]
            refine le_add_of_nonneg_right ?_
            have hfl : (0:ℤ) ≤ ⌊o.totalAmount⌋ := Int.floor_nonneg.mpr htot
            exact_mod_cast hfl
      · exact ⟨c, huntouched c hc hcase, rfl, le_rfl, le_rfl, le_rfl⟩

/-- The commit phase never reports a scheduling rejection. -/
theorem createOrderStep_ne_scheduling (u : UpsertOutcome) (oi : List OrderItem)
    (ct : ℚ) (sty : ServiceType) (bd : ℤ) (da : Option Address) (cn : Option String)
    (ci : CustomerInfo) (now : ℤ) :
    (createOrderStep u oi ct sty bd da cn ci now).1 ≠ CheckoutResult.schedulingError := by
  unfold createOrderStep
  split <;> simp

/-- The route's hours arithmetic, translated to milliseconds: the
checked quotient is below 24 exactly when the lead time is under
86400000 ms. -/
theorem hoursDiff_lt_iff (bd now : ℤ) :
    (((bd - now : ℤ) : ℚ) / (1000 * 3600) < 24) ↔ bd - now < 86400000 := by
  rw [div_lt_iff₀ (by norm_num : (0:ℚ) < 1000 * 3600)]
  have h24 : (24 : ℚ) * (1000 * 3600) = ((86400000 : ℤ) : ℚ) := by norm_num
  rw [h24, Int.cast_lt]

/-- Claim C3 (amended): for a request that passes structural validation
and whose customer and item steps succeed, the checkout is rejected with
SchedulingError exactly when bookingDate − now is less than 24 hours
(so now+23h is rejected and now+25h accepted), and at that rejection no
order has been created; the customer record, however, has already been
created or updated by the earlier customer-resolution step. -/
theorem c3_scheduling (req : CheckoutRequest) (now : ℤ) (st : DBState)
    (items : List CartItem) (ci : CustomerInfo) (bd : ℤ) (sty : ServiceType)
    (u : UpsertOutcome) (lines : List OrderItem) (total : ℚ)
    (hitems : req.items = some items) (hci : req.customerInfo = some ci)
    (hbd : req.bookingDate = some bd) (hsty : req.serviceType = some sty)
    (hval : ¬ (sty = ServiceType.delivery ∧ addressIncomplete req.deliveryAddress))
    (hup : upsertCustomer st ci sty req.deliveryAddress = Except.ok u)
    (hpi : processItems u.state.products items = Except.ok (lines, total)) :
    ((checkout req now st).1 = CheckoutResult.schedulingError ↔ bd - now < 86400000) ∧
    ((checkout req now st).1 = CheckoutResult.schedulingError →
      (checkout req now st).2.orders = st.orders) := by
  obtain ⟨oi, oc, da, os, ob, cn, ta⟩ := req
  simp only at hitems hci hbd hsty
  subst hitems
  subst hci
  subst hbd
  subst hsty
  simp only at hval hup hpi
  rw [checkout_eq]
  rw [if_neg hval]
  simp only [hup, hpi]
  obtain ⟨-, horders, -, -⟩ := upsertCustomer_ok_cases st ci sty da u hup
  by_cases hlt : ((bd - now : ℤ) : ℚ) / (1000 * 3600) < 24
  · rw [if_pos hlt]
    refine ⟨?_, fun _ => horders⟩
    simp only [true_iff]
    exact (hoursDiff_lt_iff bd now).mp hlt
  · rw [if_neg hlt]
    constructor
    · constructor
      · intro hcontra
        exact absurd hcontra (createOrderStep_ne_scheduling u lines total sty bd da cn ci now)
      · intro hms
        exact absurd ((hoursDiff_lt_iff bd now).mpr hms) hlt
    · intro hcontra
      exact absurd hcontra (createOrderStep_ne_scheduling u lines total sty bd da cn ci now)

/-- Counterexample for C3: a checkout booked 23 hours out is rejected
with SchedulingError, yet the customer record has already been created
by then — the claim's "no customer record has been created or modified"
fails. -/
theorem c3_counterexample :
    (checkout req23h 0 emptyStore).1 = CheckoutResult.schedulingError ∧
    (checkout req23h 0 emptyStore).2.customers ≠ emptyStore.customers := by
  have hdiv : ((82800000 : ℚ) / (1000 * 3600) < 24) := by norm_num
  have hrun : checkout req23h 0 emptyStore = (CheckoutResult.schedulingError, customerOnlyState) := by
    simp +decide [checkout, req23h, baseRequest, baseItems, emptyStore, plainProduct,
      upsertCustomer, processItems, addressIncomplete, deliveryAddressOr, List.find?,
      hdiv, c1Customer, customerOnlyState]
  rw [hrun]
  exact ⟨rfl, by simp [customerOnlyState, emptyStore]⟩

/-- Witness for C3 (amended) at a concrete accepted run: booked 48 hours
out, the scheduling rejection does not fire. -/
theorem c3_scheduling_witness :
    (¬ (ServiceType.pickup = ServiceType.delivery ∧
        addressIncomplete baseRequest.deliveryAddress)) ∧
    ((checkout baseRequest 0 emptyStore).1 = CheckoutResult.schedulingError ↔
      (172800000 : ℤ) - 0 < 86400000) := by
  have hup : upsertCustomer emptyStore
      { email := "amal@example.com", password := "secret1", firstName := "Amal",
        lastName := "R", phone := "991" } ServiceType.pickup none
      = Except.ok baseUpsert := by
    simp +decide [upsertCustomer, emptyStore, deliveryAddressOr, List.find?, baseUpsert,
      c1Customer, customerOnlyState, plainProduct]
  have hpi : processItems baseUpsert.state.products baseItems = Except.ok ([c1Line], 14) := by
    simp +decide [processItems, baseUpsert, customerOnlyState, plainProduct, c1Line,
      baseItems, List.find?]
    norm_num
  exact ⟨by simp, (c3_scheduling baseRequest 0 emptyStore baseItems
    { email := "amal@example.com", password := "secret1", firstName := "Amal",
      lastName := "R", phone := "991" } 172800000 ServiceType.pickup baseUpsert
    [c1Line] 14 rfl rfl rfl rfl (by simp) hup hpi).1⟩

/-- Claim C5 (amended): the route rejects with a ValidationError, with
no side effects, exactly when items, customerInfo, bookingDate or
serviceType is absent, or the delivery address is missing/incomplete on
a delivery order.  An empty-but-present items array or an
incomplete-but-present customerInfo is not caught by this validation:
an empty items array instead fails later at order creation, after the
customer record has already been created or updated. -/
theorem c5_structural_validation (req : CheckoutRequest) (now : ℤ) (st : DBState) :
    (req.items = none ∨ req.customerInfo = none ∨ req.bookingDate = none ∨
        req.serviceType = none →
      checkout req now st =
        (CheckoutResult.validationError "Missing required checkout information", st)) ∧
    (∀ items ci bd, req.items = some items → req.customerInfo = some ci →
      req.bookingDate = some bd → req.serviceType = some ServiceType.delivery →
      addressIncomplete req.deliveryAddress = true →
      checkout req now st =
        (CheckoutResult.validationError "Missing required delivery address information", st)) := by
  obtain ⟨oi, oc, da, os, ob, cn, ta⟩ := req
  constructor
  · intro h
    cases oi with
    | none => rfl
    | some items =>
      cases oc with
      | none => rfl
      | some ci =>
        cases ob with
        | none => rfl
        | some bd =>
          cases os with
          | none => rfl
          | some sty => simp at h
  · intro items ci bd hitems hci hbd hsty haddr
    simp only at hitems hci hbd hsty haddr
    subst hitems
    subst hci
    subst hbd
    subst hsty
    rw [checkout_eq, if_pos ⟨rfl, haddr⟩]

/-- Counterexample for C5: a request whose items array is present but
empty passes the structural validation, the customer write happens, and
the run then fails at order creation — not with a ValidationError, and
not without side effects. -/
theorem c5_counterexample :
    (checkout reqEmptyItems 0 emptyStore).1
      = CheckoutResult.orderError "Failed to create order" ∧
    (∀ msg, (checkout reqEmptyItems 0 emptyStore).1 ≠ CheckoutResult.validationError msg) ∧
    (checkout reqEmptyItems 0 emptyStore).2.customers ≠ emptyStore.customers := by
  have hdiv : ¬ ((172800000 : ℚ) / (1000 * 3600) < 24) := by norm_num
  have hrun : checkout reqEmptyItems 0 emptyStore
      = (CheckoutResult.orderError "Failed to create order", customerOnlyState) := by
    simp +decide [checkout, reqEmptyItems, baseRequest, emptyStore, plainProduct,
      upsertCustomer, processItems, createOrderStep, orderDocValid, addressIncomplete,
      deliveryAddressOr, List.find?, hdiv, c1Customer, customerOnlyState]
  rw [hrun]
  exact ⟨rfl, by simp, by simp [customerOnlyState, emptyStore]⟩

/-- Witness for C5 (amended): a request with no items field at all is
rejected with the ValidationError and leaves the store unchanged. -/
theorem c5_structural_validation_witness :
    ({ baseRequest with items := none } : CheckoutRequest).items = none ∧
    checkout { baseRequest with items := none } 0 emptyStore
      = (CheckoutResult.validationError "Missing required checkout information", emptyStore) :=
  ⟨rfl, (c5_structural_validation { baseRequest with items := none } 0 emptyStore).1
    (Or.inl rfl)⟩

/-- Claim C4: a checkout request that reaches the item loop and contains
an item with a missing or unknown product id fails as a whole with the
item error naming an offending item; no order is created, and no
existing customer's aggregate fields (totalOrders, totalSpent,
loyaltyPoints, lastOrderDate) are mutated — at most a fresh customer
with zeroed aggregates has been appended by the upsert step. -/
theorem c4_item_error (req : CheckoutRequest) (now : ℤ) (st : DBState)
    (items : List CartItem) (ci : CustomerInfo) (bd : ℤ) (sty : ServiceType)
    (u : UpsertOutcome)
    (hnd : (st.customers.map Customer.id).Nodup)
    (hitems : req.items = some items) (hci : req.customerInfo = some ci)
    (hbd : req.bookingDate = some bd) (hsty : req.serviceType = some sty)
    (hval : ¬ (sty = ServiceType.delivery ∧ addressIncomplete req.deliveryAddress))
    (hup : upsertCustomer st ci sty req.deliveryAddress = Except.ok u)
    (hbad : ∃ item ∈ items, badItem st.products item = true) :
    (∃ item ∈ items, badItem st.products item = true ∧
      (checkout req now st).1 = CheckoutResult.itemError (itemErrMsg item)) ∧
    (checkout req now st).2.orders = st.orders ∧
    ((checkout req now st).2.customers.map aggView = st.customers.map aggView ∨
      (checkout req now st).2.customers.map aggView
        = st.customers.map aggView ++ [(0, 0, 0, none)]) := by
  obtain ⟨oi, oc, da, os, ob, cn, ta⟩ := req
  simp only at hitems hci hbd hsty
  subst hitems
  subst hci
  subst hbd
  subst hsty
  simp only at hval hup
  obtain ⟨hprod, horders, -, hcases⟩ := upsertCustomer_ok_cases st ci sty da u hup
  obtain ⟨item, hmem, hbaditem, herr⟩ := processItems_error_of_bad st.products items hbad
  rw [checkout_eq, if_neg hval]
  simp only [hup, hprod, herr]
  refine ⟨⟨item, hmem, hbaditem, rfl⟩, horders, ?_⟩
  rcases hcases with ⟨c0, hf, -, -, hagg, hcust, -⟩ | ⟨-, -, -, hagg, hcust, -⟩
  · left
    rw [hcust]
    exact updateCustomerById_map_aggView hnd (List.mem_of_find?_eq_some hf) hagg
  · right
    rw [hcust, List.map_append]
    simp [hagg]

/-- Witness for C4 at a concrete run: an unknown product id aborts the
checkout with the item error and creates no order. -/
theorem c4_item_error_witness :
    (∃ item ∈ ghostItems, badItem emptyStore.products item = true ∧
      (checkout reqBadItem 0 emptyStore).1 = CheckoutResult.itemError (itemErrMsg item)) ∧
    (checkout reqBadItem 0 emptyStore).2.orders = emptyStore.orders := by
  have hup : upsertCustomer emptyStore
      { email := "amal@example.com", password := "secret1", firstName := "Amal",
        lastName := "R", phone := "991" } ServiceType.pickup none
      = Except.ok baseUpsert := by
    simp +decide [upsertCustomer, emptyStore, deliveryAddressOr, List.find?, baseUpsert,
      c1Customer, customerOnlyState, plainProduct]
  have hres := c4_item_error reqBadItem 0 emptyStore ghostItems
    { email := "amal@example.com", password := "secret1", firstName := "Amal",
      lastName := "R", phone := "991" } 172800000 ServiceType.pickup baseUpsert
    (by simp [emptyStore]) rfl rfl rfl rfl (by simp) hup
    ⟨{ id := some "zz", name := "Ghost", price := 1, quantity := 1 },
      by simp [ghostItems], by simp +decide [badItem, emptyStore, plainProduct, List.find?]⟩
  exact ⟨hres.1, hres.2.1⟩

/-- Claim C6: (1) every successful checkout updates the owning
customer's aggregates exactly once — totalOrders + 1, totalSpent + the
order total, loyaltyPoints + floor(total), lastOrderDate set to now —
appends exactly the one order, and leaves every other customer record
untouched; (2) after N successful checkouts for one (initially absent)
email, totalOrders = N and loyaltyPoints = Σ floor(order totalAmount)
over the created orders; (3) the counters never decrease under any
checkout.  Ids are assumed unique and below the fresh-id counter, and
product prices nonnegative (collection `min: 0`). -/
theorem c6_customer_aggregates :
    (∀ (req : CheckoutRequest) (now : ℤ) (st : DBState) (o : Order) (cResp : Customer)
        (isNew : Bool) (st' : DBState),
      (st.customers.map Customer.id).Nodup →
      (∀ c ∈ st.customers, c.id < st.nextId) →
      (∀ p ∈ st.products, 0 ≤ p.price) →
      checkout req now st = (CheckoutResult.success o cResp isNew, st') →
      ∃ ci, req.customerInfo = some ci ∧
        st'.orders = st.orders ++ [o] ∧
        (∃ c', st'.customers.find? (fun c => decide (c.email = ci.email)) = some c' ∧
          c'.id = o.customer ∧
          c'.totalOrders =
            ((st.customers.find? (fun c => decide (c.email = ci.email))).map
              Customer.totalOrders).getD 0 + 1 ∧
          c'.totalSpent =
            ((st.customers.find? (fun c => decide (c.email = ci.email))).map
              Customer.totalSpent).getD 0 + o.totalAmount ∧
          c'.loyaltyPoints =
            ((st.customers.find? (fun c => decide (c.email = ci.email))).map
              Customer.loyaltyPoints).getD 0 + (⌊o.totalAmount⌋ : ℤ) ∧
          c'.lastOrderDate = some now) ∧
        (∀ c ∈ st.customers, c.id ≠ o.customer → c ∈ st'.customers)) ∧
    (∀ (runs : List (CheckoutRequest × ℤ)) (st : DBState) (e : String),
      (st.customers.map Customer.id).Nodup →
      (∀ c ∈ st.customers, c.id < st.nextId) →
      (∀ p ∈ st.products, 0 ≤ p.price) →
      st.customers.find? (fun c => decide (c.email = e)) = none →
      (∀ pr ∈ runs, ∃ ci, pr.1.customerInfo = some ci ∧ ci.email = e) →
      allSucceed runs st = true →
      ∃ newOrders, (runCheckouts runs st).orders = st.orders ++ newOrders ∧
        newOrders.length = runs.length ∧
        (runs = [] ∨
          ∃ c', (runCheckouts runs st).customers.find? (fun c => decide (c.email = e))
              = some c' ∧
            c'.totalOrders = runs.length ∧
            c'.loyaltyPoints = ((newOrders.map (fun o => ⌊o.totalAmount⌋)).sum : ℤ))) ∧
    (∀ (req : CheckoutRequest) (now : ℤ) (st : DBState),
      (st.customers.map Customer.id).Nodup →
      (∀ c ∈ st.customers, c.id < st.nextId) →
      (∀ p ∈ st.products, 0 ≤ p.price) →
      ∀ c ∈ st.customers, ∃ c', c' ∈ (checkout req now st).2.customers ∧ c'.id = c.id ∧
        c.totalOrders ≤ c'.totalOrders ∧ c.totalSpent ≤ c'.totalSpent ∧
        c.loyaltyPoints ≤ c'.loyaltyPoints) := by
  refine ⟨?_, ?_, ?_⟩
  · intro req now st o cResp isNew st' hnd hlt hpnn h
    obtain ⟨ci, hci, hord, -, -, hcust', huntouched, -, -, -, -, -⟩ :=
      checkout_success_step req now st o cResp isNew st' hnd hlt hpnn h
    exact ⟨ci, hci, hord, hcust', huntouched⟩
  · exact fun runs st e hnd hlt hpnn hf hemails hsucc =>
      runCheckouts_fresh e runs st hnd hlt hpnn hf hemails hsucc
  · exact fun req now st hnd hlt hpnn => checkout_monotone req now st hnd hlt hpnn

/-- Witness for C6 at a concrete one-run sequence: a single successful
checkout from the empty store leaves the customer with one order and 14
loyalty points. -/
theorem c6_customer_aggregates_witness :
    allSucceed [(baseRequest, 0)] emptyStore = true ∧
    (∃ newOrders, (runCheckouts [(baseRequest, 0)] emptyStore).orders
        = emptyStore.orders ++ newOrders ∧
      newOrders.length = ([(baseRequest, 0)] : List (CheckoutRequest × ℤ)).length ∧
      (([(baseRequest, 0)] : List (CheckoutRequest × ℤ)) = [] ∨
        ∃ c', (runCheckouts [(baseRequest, 0)] emptyStore).customers.find?
            (fun c => decide (c.email = "amal@example.com")) = some c' ∧
          c'.totalOrders = (([(baseRequest, 0)] : List (CheckoutRequest × ℤ)).length : ℚ) ∧
          c'.loyaltyPoints = ((newOrders.map (fun o => ⌊o.totalAmount⌋)).sum : ℤ))) := by
  have hdiv : ¬ ((172800000 : ℚ) / (1000 * 3600) < 24) := by norm_num
  have hrun : checkout baseRequest 0 emptyStore
      = (CheckoutResult.success c1Order c1Customer true, c1FinalState) := by
    simp +decide [checkout, baseRequest, baseItems, emptyStore, plainProduct, upsertCustomer,
      processItems, createOrderStep, orderDocValid, addressIncomplete,
      updateCustomerById, deliveryAddressOr, List.find?, hdiv,
      c1Order, c1Customer, c1CustomerAfter, c1FinalState]
    norm_num [Int.floor_ofNat]
  have hsucc : allSucceed [(baseRequest, 0)] emptyStore = true := by
    simp [allSucceed, hrun, isSuccess]
  refine ⟨hsucc, c6_customer_aggregates.2.1 [(baseRequest, 0)] emptyStore
    "amal@example.com" (by simp [emptyStore]) (by simp [emptyStore]) ?_
    (by simp [emptyStore]) ?_ hsucc⟩
  · intro p hp
    simp only [emptyStore, List.mem_singleton] at hp
    rw [hp]
    norm_num [plainProduct]
  · intro pr hpr
    simp only [List.mem_singleton] at hpr
    rw [hpr]
    exact ⟨_, rfl, rfl⟩

/-- Witness for C1: a concrete successful checkout from an empty store,
with its order totalling the line subtotals. -/
theorem c1_checkout_repricing_witness :
    checkout baseRequest 0 emptyStore
      = (CheckoutResult.success c1Order c1Customer true, c1FinalState) ∧
    c1Order.totalAmount = (c1Order.items.map OrderItem.subtotal).sum := by
  have hdiv : ¬ ((172800000 : ℚ) / (1000 * 3600) < 24) := by norm_num
  have hrun : checkout baseRequest 0 emptyStore
      = (CheckoutResult.success c1Order c1Customer true, c1FinalState) := by
    simp +decide [checkout, baseRequest, baseItems, emptyStore, plainProduct, upsertCustomer,
      processItems, createOrderStep, orderDocValid, addressIncomplete,
      updateCustomerById, deliveryAddressOr, List.find?, hdiv,
      c1Order, c1Customer, c1CustomerAfter, c1FinalState]
    norm_num [Int.floor_ofNat]
  exact ⟨hrun, (c1_checkout_repricing baseRequest 0 emptyStore c1Order c1Customer true
    c1FinalState hrun).1⟩

end FlavorForge
